import Mathlib

/-!
Verification of the AIReceitYomitori workspace store and extraction queue.

The definitions below are a shallow embedding of `src/core/data_manager.py`
(class `DataManager`) and `src/core/image_processor.py` (class
`ImageProcessor`).  Python dictionaries are modelled as insertion-ordered
association lists (`List (String × _)`), JSON values as the inductive
`JValue`, and filesystem / service effects as explicit parameters and
event traces.
-/

namespace Receipt

/-- JSON values stored in a workspace document (`null` models Python `None`). -/
inductive JValue where
  | null
  | str (s : String)
  | int (n : Int)
  | bool (b : Bool)
deriving DecidableEq, Repr

def JValue.isNull : JValue → Bool
  | .null => true
  | _ => false

/-- Python `f"{v}"` rendering of a JSON value. -/
def JValue.pyFormat : JValue → String
  | .null => "None"
  | .str s => s
  | .int n => toString n
  | .bool b => if b then "True" else "False"

/-- Insertion-ordered dictionary write, Python semantics: assigning an
existing key keeps its position, a new key is appended at the end. -/
def dinsert {α : Type} (d : List (String × α)) (k : String) (v : α) :
    List (String × α) :=
  if d.any (fun kv => kv.1 == k) then
    d.map (fun kv => if kv.1 == k then (k, v) else kv)
  else
    d ++ [(k, v)]

/-- Update the value at key `k` in place (no-op when the key is absent),
modelling mutation of a dict entry. -/
def dupdate {α : Type} (d : List (String × α)) (k : String) (f : α → α) :
    List (String × α) :=
  d.map (fun kv => if kv.1 == k then (k, f kv.2) else kv)

/-- Keys of an association-list dictionary. -/
def dkeys {α : Type} (d : List (String × α)) : List String :=
  d.map Prod.fst

/-- ImageRecord.processing_status (data_manager.py lines 189-195). -/
structure ProcessingStatus where
  status : String
  last_processed : Option String
  error_type : Option String
  error_details : Option String
deriving DecidableEq, Repr

/-- ImageRecord.validation (data_manager.py lines 206-210). -/
structure Validation where
  is_valid : Bool
  errors : List String
  warnings : List String
deriving DecidableEq, Repr

/-- ImageRecord.file_info (data_manager.py lines 183-188); the reserved
`hash` field is constantly null in the source and omitted. -/
structure FileInfo where
  path : String
  size : Nat
  created_at : String
deriving DecidableEq, Repr

/-- One edit_history entry (data_manager.py lines 291-298). -/
structure EditEntry where
  timestamp : String
  field : String
  old_value : JValue
  new_value : JValue
  edited_by : String
  reason : String
deriving DecidableEq, Repr

/-- One image record of the workspace document. -/
structure ImageRecord where
  file_info : FileInfo
  processing_status : ProcessingStatus
  extracted_data : List (String × JValue)
  validation : Validation
  edit_history : List EditEntry
deriving DecidableEq, Repr

/-- The workspace document: settings.output_format plus the images dict
(data_manager.py lines 55-75). -/
structure Workspace where
  output_format : List String
  images : List (String × ImageRecord)
deriving DecidableEq, Repr

/-- The default output_format / canonical field vocabulary
(data_manager.py lines 62-71). -/
def default_output_format : List String :=
  ["Transaction Date (yyyy/mm/dd only)",
   "Store Name",
   "Total Amount (currency symbol removed)",
   "The amount of consumption tax at the rate of 10%",
   "The amount of consumption tax at the rate of 8%",
   "The amount subject to 10% tax",
   "The amount subject to 8% tax",
   "Representative Item Name"]

/-- DataManager state: the loaded document, the current folder, and a
counter of `_save_workspace` executions (each one persists the in-memory
document to disk). -/
structure DM where
  ws : Option Workspace
  folder : Option String
  saves : Nat
deriving DecidableEq, Repr

/-- Split a character list on a separator character, keeping empty pieces —
the semantics of Python `str.split(sep)` and of `String.splitOn` for a
one-character separator.  (Implemented on `List Char` so that proofs can
evaluate it.) -/
def splitOnCharAux (c : Char) : List Char → List Char → List (List Char)
  | [], cur => [cur.reverse]
  | x :: xs, cur =>
    if x = c then cur.reverse :: splitOnCharAux c xs []
    else splitOnCharAux c xs (x :: cur)

def splitOnChar (c : Char) (l : List Char) : List (List Char) :=
  splitOnCharAux c l []

/-- Join character-list pieces with a separator character (Python
`sep.join(pieces)`). -/
def joinChar (c : Char) : List (List Char) → List Char
  | [] => []
  | [l] => l
  | l :: ls => l ++ c :: joinChar c ls

/-- Last component of a slash-separated path (Python `Path(p).name`). -/
def pathBase (p : String) : String :=
  String.mk (((splitOnChar '/' p.data).getLast?).getD p.data)

/-- Key resolution of `DataManager.update_extracted_data` (lines 241-250):
`Path(p).relative_to(folder)` when `p` lies under the current folder
(for the non-recursive scan this is the file name), otherwise the
`ValueError` handler falls back to `Path(p).name`; with no current folder
the name is used directly. -/
def resolveKey (folder : Option String) (p : String) : String :=
  match folder with
  | none => pathBase p
  | some f =>
    if (f.data ++ ['/']).isPrefixOf p.data then
      String.mk (p.data.drop (f.data.length + 1))
    else pathBase p

/-- A Python exception as recorded by `update_image_status`:
`error.__class__.__name__` and `str(error)`. -/
structure PyError where
  className : String
  message : String
deriving DecidableEq, Repr

/-- DataManager.update_image_status (lines 220-236): a silent no-op when no
document is loaded or the key is unknown; otherwise sets the
processing_status fields (clearing the error fields when no error is
supplied) and saves the workspace. -/
def update_image_status (dm : DM) (image_path status now : String)
    (error : Option PyError) : DM :=
  match dm.ws with
  | none => dm
  | some w =>
    if (w.images.lookup image_path).isSome then
      let images := dupdate w.images image_path (fun r =>
        { r with processing_status :=
          { status := status
            last_processed := some now
            error_type := error.map (fun e => e.className)
            error_details := error.map (fun e => e.message) } })
      { dm with ws := some { w with images := images }, saves := dm.saves + 1 }
    else dm

/-- DataManager.update_extracted_data (lines 238-283): resolves the key,
silently returns when no document is loaded or the key is unknown;
otherwise replaces `extracted_data` with the supplied mapping (the
deletion of legacy fields at lines 267-270 acts on the dictionary that
line 273 then replaces wholesale, so the net effect is the verbatim
replacement), sets `processing_status.status` to `"completed"` and
`validation.is_valid` to `True`, and saves the workspace. -/
def update_extracted_data (dm : DM) (image_path : String)
    (data : List (String × JValue)) : DM :=
  let key := resolveKey dm.folder image_path
  match dm.ws with
  | none => dm
  | some w =>
    if (w.images.lookup key).isSome then
      let images := dupdate w.images key (fun r =>
        { r with
          extracted_data := data
          processing_status := { r.processing_status with status := "completed" }
          validation := { r.validation with is_valid := true } })
      { dm with ws := some { w with images := images }, saves := dm.saves + 1 }
    else dm

/-! ### Extraction queue (`ImageProcessor`, image_processor.py) -/

/-- Error classification of `ImageProcessor.process_image` /
`_process_with_gemini`: the class prefix of the `RuntimeError` message
(`CLASS:message`). -/
inductive ErrClass where
  | INVALID_API_KEY
  | MISSING_API_KEY
  | QUOTA_EXCEEDED
  | PROCESSING_ERROR
deriving DecidableEq, Repr

/-- The message prefix used for each class. -/
def ErrClass.tag : ErrClass → String
  | .INVALID_API_KEY => "INVALID_API_KEY"
  | .MISSING_API_KEY => "MISSING_API_KEY"
  | .QUOTA_EXCEEDED => "QUOTA_EXCEEDED"
  | .PROCESSING_ERROR => "PROCESSING_ERROR"

/-- Fatal classes are those re-raised by the batch loop
(image_processor.py lines 88-90): the `str(e).startswith` test on
`INVALID_API_KEY:`, `MISSING_API_KEY:`, `QUOTA_EXCEEDED:`. -/
def ErrClass.isFatal : ErrClass → Bool
  | .PROCESSING_ERROR => false
  | _ => true

/-- Result of `process_image` for one path: either the extracted mapping, or
a classified `RuntimeError` (`process_image` wraps every non-fatal failure
into the `PROCESSING_ERROR` class and re-raises fatal ones unchanged,
image_processor.py lines 215-225). -/
inductive Outcome where
  | ok (data : List (String × JValue))
  | err (c : ErrClass) (msg : String)
deriving DecidableEq, Repr

/-- The `RuntimeError` object raised for a classified failure, as observed by
`update_image_status` (`__class__.__name__` and `str(e)` =
`CLASS:message`). -/
def outcomeError (c : ErrClass) (msg : String) : PyError :=
  { className := "RuntimeError", message := c.tag ++ ":" ++ msg }

/-- Mutable ImageProcessor state (image_processor.py lines 16-22). -/
structure ProcState where
  queue : List String
  isProcessing : Bool
  progress : Nat
  total : Nat
  cancelled : Bool
deriving DecidableEq, Repr

/-- Result of one `process_queue` call. `attempts` lists the paths whose
loop body ran, in order; `loopProgress` is the value of
`_current_progress` at the moment the loop exited, before the `finally`
block resets it; `fatal` carries the exception propagated out of
`process_queue` (only fatal classes are re-raised); `returned` is the
Python return value (`none` when the call ended by exception). -/
structure BatchResult where
  dm : DM
  proc : ProcState
  attempts : List String
  loopProgress : Nat
  fatal : Option ErrClass
  returned : Option Bool
deriving Repr

/-- The per-item loop of `process_queue` (image_processor.py lines 61-91),
iterating over the snapshot of the queue taken at loop start.  `oracle`
gives the outcome of `process_image` for each path, `now` the wall-clock
timestamp used for `last_processed`. -/
def processItems (oracle : String → Outcome) (now : String) :
    List String → DM → ProcState → List String →
    DM × ProcState × List String × Option ErrClass
  | [], dm, ps, acc => (dm, ps, acc.reverse, none)
  | p :: rest, dm, ps, acc =>
    if ps.cancelled then (dm, ps, acc.reverse, none)
    else
      let dm1 := update_image_status dm p "processing" now none
      match oracle p with
      | .ok data =>
        let dm2 := update_extracted_data dm1 p data
        let ps1 := { ps with queue := ps.queue.erase p, progress := ps.progress + 1 }
        processItems oracle now rest dm2 ps1 (p :: acc)
      | .err c msg =>
        let dm2 := update_image_status dm1 p "error" now (some (outcomeError c msg))
        if c.isFatal then (dm2, ps, (p :: acc).reverse, some c)
        else processItems oracle now rest dm2 ps (p :: acc)

/-- ImageProcessor.process_queue (image_processor.py lines 40-104).
`hasModel` models `hasattr(self, '_model')`.  Returns false without
touching anything when already processing, when the queue is empty, or
when the Gemini model is missing; otherwise runs the loop and, in the
`finally` block, resets the processor to idle and clears queue, progress,
total and the cancellation flag. -/
def process_queue (oracle : String → Outcome) (now : String) (hasModel : Bool)
    (dm : DM) (ps : ProcState) : BatchResult :=
  if ps.isProcessing then
    { dm := dm, proc := ps, attempts := [], loopProgress := ps.progress,
      fatal := none, returned := some false }
  else if ps.queue.isEmpty then
    { dm := dm, proc := ps, attempts := [], loopProgress := ps.progress,
      fatal := none, returned := some false }
  else if !hasModel then
    { dm := dm, proc := ps, attempts := [], loopProgress := ps.progress,
      fatal := none, returned := some false }
  else
    let ps0 := { ps with
      isProcessing := true
      total := ps.queue.length
      progress := 0 }
    let out := processItems oracle now ps0.queue dm ps0 []
    let psF := { out.2.1 with
      isProcessing := false
      queue := []
      progress := 0
      total := 0
      cancelled := false }
    { dm := out.1, proc := psF, attempts := out.2.2.1,
      loopProgress := out.2.1.progress, fatal := out.2.2.2,
      returned := if out.2.2.2.isSome then none else some true }

/-! ### CSV export (`DataManager.export_csv`, data_manager.py lines 303-327) -/

/-- Rendering of one CSV cell by `csv.DictWriter`: a missing key renders as
the `restval` default `''`, Python `None` as the empty string, other
values via `str`. -/
def renderCell : Option JValue → String
  | none => ""
  | some .null => ""
  | some (.str s) => s
  | some (.int n) => toString n
  | some (.bool b) => if b then "True" else "False"

/-- One `DictWriter.writerow` call with the default
`extrasaction='raise'`: a row dictionary containing a key outside the
field names raises `ValueError` (modelled as `none`); otherwise the cells
follow the field-name order. -/
def dictWriterRow (fieldnames : List String) (row : List (String × JValue)) :
    Option (List String) :=
  if row.any (fun kv => !(fieldnames.contains kv.1)) then none
  else some (fieldnames.map (fun f => renderCell (row.lookup f)))

/-- The row loop of `export_csv` (lines 317-320): one `writerow` per image in
document order; the first `ValueError` aborts the loop (the surrounding
`except` makes `export_csv` return `False`), rows already written stay in
the file.  (The `"extracted_data" in image_info` guard always holds for
records created by this program.) -/
def writeRows (fieldnames : List String) :
    List (String × ImageRecord) → List (List String) × Bool
  | [] => ([], true)
  | kv :: rest =>
    match dictWriterRow fieldnames kv.2.extracted_data with
    | none => ([], false)
    | some row =>
      let out := writeRows fieldnames rest
      (row :: out.1, out.2)

/-- DataManager.export_csv: the header row is `output_format`, then one
data row per image record; returns the lines written to the file and the
boolean result of the call. -/
def export_csv (w : Workspace) : List (List String) × Bool :=
  let out := writeRows w.output_format w.images
  (w.output_format :: out.1, out.2)

/-! ### Field-name conversion (`ImageProcessor._process_with_gemini`,
image_processor.py lines 302-332) -/

/-- The fixed legacy-to-canonical field-name table
(image_processor.py lines 303-308). -/
def field_mapping : List (String × String) :=
  [("10% Tax Amount", "The amount of consumption tax at the rate of 10%"),
   ("8% Tax Amount", "The amount of consumption tax at the rate of 8%"),
   ("10% tax base", "The amount subject to 10% tax"),
   ("8% tax base", "The amount subject to 8% tax")]

/-- The fields filled with `None` when absent from the response
(image_processor.py lines 317-325; note `Representative Item Name` is not
in this list). -/
def gemini_required_fields : List String :=
  ["Transaction Date (yyyy/mm/dd only)",
   "Store Name",
   "Total Amount (currency symbol removed)",
   "The amount of consumption tax at the rate of 10%",
   "The amount of consumption tax at the rate of 8%",
   "The amount subject to 10% tax",
   "The amount subject to 8% tax"]

/-- The key-conversion and null-filling step applied to a parsed service
response before it is written to the store: every key is sent through
`field_mapping.get(key, key)` (an unknown key passes through verbatim),
then each missing required field is set to `None`. -/
def convert_gemini_fields (result : List (String × JValue)) :
    List (String × JValue) :=
  let converted := result.foldl
    (fun acc kv => dinsert acc ((field_mapping.lookup kv.1).getD kv.1) kv.2) []
  gemini_required_fields.foldl
    (fun acc f => if (acc.lookup f).isSome then acc else dinsert acc f .null)
    converted

/-! ### Image-backup rotation (`DataManager._cleanup_directory_backups`,
data_manager.py lines 478-535, `.backupimage` branch) -/

/-- The backup file name produced by `_backup_image` (lines 460-462):
`f"{timestamp}_{image_path.name}"` with
`timestamp = now.strftime("%Y-%m-%d_%H%M%S")` — note the timestamp itself
contains an underscore between date and time. -/
def mkImageBackupName (tsDate tsTime origName : String) : String :=
  tsDate ++ "_" ++ tsTime ++ "_" ++ origName

/-- The grouping key computed at line 496:
`"_".join(backup.name.split("_")[1:])`. -/
def backupGroupKey (name : String) : String :=
  String.mk (joinChar '_' ((splitOnChar '_' name.data).drop 1))

/-- Append a file to its group, building groups in encounter order
(Python dict-of-lists construction, lines 492-499). -/
def addToGroups (gs : List (String × List (String × Nat)))
    (key : String) (f : String × Nat) : List (String × List (String × Nat)) :=
  if gs.any (fun g => g.1 == key) then
    gs.map (fun g => if g.1 == key then (g.1, g.2 ++ [f]) else g)
  else gs ++ [(key, [f])]

/-- Stable insertion into a list sorted by descending modification time,
matching Python's stable `sorted(..., key=mtime, reverse=True)`. -/
def insertByMtimeDesc (x : String × Nat) :
    List (String × Nat) → List (String × Nat)
  | [] => [x]
  | y :: ys => if x.2 > y.2 then x :: y :: ys else y :: insertByMtimeDesc x ys

/-- Stable descending sort by modification time (line 505-509). -/
def sortByMtimeDesc : List (String × Nat) → List (String × Nat)
  | [] => []
  | x :: xs => insertByMtimeDesc x (sortByMtimeDesc xs)

/-- The `.backupimage` branch of `_cleanup_directory_backups`
(lines 487-513): group the files by `backupGroupKey`, and in every group
with more than one member delete all but the newest by modification time.
A directory entry is a pair of file name and modification time. -/
def cleanup_image_backups (files : List (String × Nat)) :
    List (String × Nat) :=
  let groups := files.foldl
    (fun gs f => addToGroups gs (backupGroupKey f.1) f) []
  let deleted := groups.foldl
    (fun acc g =>
      if g.2.length > 1 then acc ++ ((sortByMtimeDesc g.2).drop 1).map Prod.fst
      else acc) []
  files.filter (fun f => !(deleted.contains f.1))

/-! ### Folder open (`DataManager.open_folder` / `_load_images` /
`_get_or_create_image_info`, data_manager.py lines 22-38, 151-218) -/

/-- A directory entry of the opened folder as seen by the non-recursive
`glob("*")` scan: file name, size and creation time. -/
structure FolderFile where
  name : String
  size : Nat
  ctime : String
deriving DecidableEq, Repr

/-- Python `Path(name).suffix`: the extension from the last dot, empty for
dotless names and for a leading-dot name with no further dot. -/
def pathSuffix (name : String) : String :=
  match splitOnChar '.' name.data with
  | [] => ""
  | [_] => ""
  | p :: rest =>
    if p.isEmpty && rest.length = 1 then ""
    else String.mk ('.' :: ((p :: rest).getLast?.getD []))

/-- The image-extension filter of `_load_images` (line 157-161); Python
lower-cases the suffix before the comparison. -/
def isImageFile (name : String) : Bool :=
  [".jpg", ".jpeg", ".png"].contains
    (String.mk ((pathSuffix name).data.map Char.toLower))

/-- The fresh record created for a newly discovered file
(data_manager.py lines 182-212). -/
def fresh_image_record (folder : String) (f : FolderFile) : ImageRecord :=
  { file_info := { path := folder ++ "/" ++ f.name, size := f.size,
                   created_at := f.ctime }
    processing_status :=
      { status := "pending", last_processed := none,
        error_type := none, error_details := none }
    extracted_data := default_output_format.map (fun k => (k, JValue.null))
    validation := { is_valid := false, errors := [], warnings := [] }
    edit_history := [] }

/-- DataManager._get_or_create_image_info: the record key is the path
relative to the folder — for the non-recursive scan, the file name.  An
existing record gets its `size` and absolute `path` refreshed in place;
otherwise a fresh record is appended to the images dict (and the
workspace saved, not tracked here). -/
def get_or_create_image_info (w : Workspace) (folder : String)
    (f : FolderFile) : Workspace × ImageRecord :=
  match w.images.lookup f.name with
  | some r =>
    let r' := { r with file_info :=
      { r.file_info with size := f.size, path := folder ++ "/" ++ f.name } }
    ({ w with images := dupdate w.images f.name (fun _ => r') }, r')
  | none =>
    let r := fresh_image_record folder f
    ({ w with images := w.images ++ [(f.name, r)] }, r)

/-- DataManager._load_images: scan the folder entries in enumeration order,
creating or refreshing a record for each image file; returns the updated
document and the records in enumeration order. -/
def load_images (w : Workspace) (folder : String) :
    List FolderFile → Workspace × List ImageRecord
  | [] => (w, [])
  | f :: rest =>
    if isImageFile f.name then
      let out := get_or_create_image_info w folder f
      let outRest := load_images out.1 folder rest
      (outRest.1, out.2 :: outRest.2)
    else load_images w folder rest

/-- DataManager.open_folder on an existing folder: load the existing
document when present and readable (`loaded = some w`), otherwise create a
fresh one (`_create_new_workspace`, modelled by its `output_format` and
empty images), then scan the folder. -/
def open_folder (loaded : Option Workspace) (folder : String)
    (files : List FolderFile) : Workspace × List ImageRecord :=
  let w := loaded.getD { output_format := default_output_format, images := [] }
  load_images w folder files

/-! ### Rename (`DataManager.rename_image`, data_manager.py lines 341-476) -/

/-- Observable side effects of one `rename_image` call, in execution
order: the image-file backup copy, the in-memory document key update, the
filesystem rename, and the `_save_workspace` persistence of the
document. -/
inductive Effect where
  | backupImage (backupPath : String)
  | docKeyUpdate (oldKey newKey : String)
  | fsRename (oldPath newPath : String)
  | persist
deriving DecidableEq, Repr

/-- Environment of a `rename_image` call: the DataManager state, the set of
existing files (absolute paths), whether the `shutil.copy2` backup copy
succeeds, and the `%Y-%m-%d_%H%M%S` timestamp. -/
structure RenameEnv where
  dm : DM
  fs : List String
  backupOk : Bool
  timestamp : String
deriving Repr

/-- Result of `rename_image`: final DataManager state, final filesystem,
effect trace, and the boolean return value. -/
structure RenameResult where
  dm : DM
  fs : List String
  trace : List Effect
  ok : Bool
deriving DecidableEq, Repr

/-- Parent directory of a slash-separated path (Python `Path(p).parent`). -/
def pathParent (p : String) : String :=
  String.mk (joinChar '/' ((splitOnChar '/' p.data).dropLast))

/-- Python `Path(name).stem`: the name with its suffix removed. -/
def pathStemOf (name : String) : String :=
  String.mk (name.data.take (name.data.length - (pathSuffix name).length))

/-- The required canonical fields of `_can_rename` (line 407). -/
def rename_required_fields : List String :=
  ["Transaction Date (yyyy/mm/dd only)", "Store Name"]

/-- DataManager._can_rename (lines 405-408): both required fields must be
present and non-null (`extracted_data.get(field) is not None`). -/
def can_rename (d : List (String × JValue)) : Bool :=
  rename_required_fields.all (fun f =>
    match d.lookup f with
    | some v => !v.isNull
    | none => false)

/-- The character sanitization of `_generate_filename` (line 416); the
source uses Python's Unicode-aware `str.isalnum`, modelled here by
`Char.isAlphanum`. -/
def sanitizeStoreChar (c : Char) : Char :=
  if c.isAlphanum || ['.', '_', '-', ' '].contains c then c else '_'

/-- Python `s.replace("/", "-")` for a one-character pattern: a
character-wise substitution. -/
def replaceSlashes (s : String) : String :=
  String.mk (s.data.map (fun c => if c = '/' then '-' else c))

/-- DataManager._generate_filename (lines 410-427).  `get(field, "")`
defaults an absent field to the empty string.  Joining the characters of a
non-string store value raises `TypeError` (caught by `rename_image`'s
handler, modelled as `none`).  For a string date the slashes become
hyphens; for any other date value the inner `try` swallows the
`AttributeError` and the f-string renders the value via `str`. -/
def generate_filename (d : List (String × JValue)) (suffix : String) :
    Option String :=
  let dateV := (d.lookup "Transaction Date (yyyy/mm/dd only)").getD (.str "")
  let storeV := (d.lookup "Store Name").getD (.str "")
  match storeV with
  | .str store =>
    let store := String.mk (store.data.map sanitizeStoreChar)
    let date := match dateV with
      | .str s => replaceSlashes s
      | v => v.pyFormat
    some (date ++ "_" ++ store ++ suffix)
  | _ => none

/-- The `while True` search of `_resolve_filename_conflict` (lines 429-442)
with explicit fuel: among finitely many existing files a free candidate is
reached before the fuel (|fs| + 1 candidates) runs out, matching the
unbounded source loop on every finite directory. -/
def resolveConflictLoop (fs : List String) (parent stem suffix : String) :
    Nat → Nat → String
  | 0, counter => parent ++ "/" ++ stem ++ "_" ++ toString counter ++ suffix
  | fuel + 1, counter =>
    let cand := parent ++ "/" ++ stem ++ "_" ++ toString counter ++ suffix
    if fs.contains cand then
      resolveConflictLoop fs parent stem suffix fuel (counter + 1)
    else cand

/-- DataManager._resolve_filename_conflict: the path itself when free,
otherwise the first `stem_i.suffix` candidate not present. -/
def resolve_filename_conflict (fs : List String) (path : String) : String :=
  if fs.contains path then
    let name := pathBase path
    resolveConflictLoop fs (pathParent path) (pathStemOf name)
      (pathSuffix name) (fs.length + 1) 1
  else path

/-- DataManager._backup_image (lines 444-476): the backup copy
`<parent>/.backupimage/<timestamp>_<name>`; `none` when the copy fails
(the source then returns `None`). -/
def backup_image (fs : List String) (timestamp imagePath : String)
    (backupOk : Bool) : Option (String × List String) :=
  let backupPath := pathParent imagePath ++ "/.backupimage/" ++ timestamp
    ++ "_" ++ pathBase imagePath
  if backupOk then some (backupPath, fs ++ [backupPath]) else none

/-- Python `Path(p).relative_to(folder)`: `none` models the `ValueError`
(path not under the folder) and the `TypeError` when no current folder is
set; both are caught by `rename_image`'s handler. -/
def relativeTo (folder : Option String) (p : String) : Option String :=
  match folder with
  | none => none
  | some f =>
    if (f.data ++ ['/']).isPrefixOf p.data then
      some (String.mk (p.data.drop (f.data.length + 1)))
    else none

/-- The tail of `rename_image` after the document update (lines 385-398):
`old_path.rename(new_path)` — a `FileNotFoundError` on a missing source
aborts with `False`, after the in-memory document was already changed —
then `_save_workspace()` and `return True`. -/
def renameFinish (dm : DM) (fs : List String) (trace : List Effect)
    (old_path new_path : String) : RenameResult :=
  if fs.contains old_path then
    { dm := { dm with saves := dm.saves + 1 }
      fs := fs.erase old_path ++ [new_path]
      trace := trace ++ [.fsRename old_path new_path, .persist]
      ok := true }
  else { dm := dm, fs := fs, trace := trace, ok := false }

/-- DataManager.rename_image (lines 341-403), step by step: refuse when the
required fields are missing or null; build the candidate name; resolve
conflicts; back up the original image (aborting when the copy fails);
update the document in memory (pop the old key, reinsert under the new key
with the updated absolute path — skipped silently when the old key is not
in the document); perform the filesystem rename; persist the document.
Exceptions anywhere (`relative_to`, missing workspace, missing source
file) are caught and yield `False` with the effects already performed. -/
def rename_image (env : RenameEnv) (image_info : ImageRecord) : RenameResult :=
  let d := image_info.extracted_data
  if !(can_rename d) then
    { dm := env.dm, fs := env.fs, trace := [], ok := false }
  else
    let old_path := image_info.file_info.path
    match generate_filename d (pathSuffix (pathBase old_path)) with
    | none => { dm := env.dm, fs := env.fs, trace := [], ok := false }
    | some new_name =>
      let new_path := resolve_filename_conflict env.fs
        (pathParent old_path ++ "/" ++ new_name)
      match backup_image env.fs env.timestamp old_path env.backupOk with
      | none => { dm := env.dm, fs := env.fs, trace := [], ok := false }
      | some bk =>
        let trace1 := [Effect.backupImage bk.1]
        match relativeTo env.dm.folder old_path,
              relativeTo env.dm.folder new_path, env.dm.ws with
        | some oldRel, some newRel, some w =>
          match w.images.lookup oldRel with
          | some r =>
            let images1 := w.images.filter (fun kv => !(kv.1 == oldRel))
            let r' := { r with file_info :=
              { r.file_info with path := new_path } }
            let images2 := dinsert images1 newRel r'
            let dm1 := { env.dm with ws := some { w with images := images2 } }
            renameFinish dm1 bk.2 (trace1 ++ [.docKeyUpdate oldRel newRel])
              old_path new_path
          | none => renameFinish env.dm bk.2 trace1 old_path new_path
        | _, _, _ => { dm := env.dm, fs := bk.2, trace := trace1, ok := false }

/-! ### Helper definitions for the statements -/

/-- Record lookup through the DataManager state. -/
def wsLookup (dm : DM) (q : String) : Option ImageRecord :=
  match dm.ws with
  | none => none
  | some w => w.images.lookup q

/-- Whether a `process_image` outcome is a success. -/
def Outcome.isOk : Outcome → Bool
  | .ok _ => true
  | .err _ _ => false

/-- The processing_status value written by `update_image_status`. -/
def statusWritten (st now : String) (e : Option PyError) : ProcessingStatus :=
  { status := st
    last_processed := some now
    error_type := e.map (fun x => x.className)
    error_details := e.map (fun x => x.message) }

/-! ### Dictionary lemmas -/

theorem lookup_cons_self {α : Type} (a : String) (v : α)
    (l : List (String × α)) : List.lookup a ((a, v) :: l) = some v := by
  simp [List.lookup]

theorem lookup_cons_ne {α : Type} (a b : String) (v : α)
    (l : List (String × α)) (h : a ≠ b) :
    List.lookup a ((b, v) :: l) = List.lookup a l := by
  simp only [List.lookup]
  rw [show (a == b) = false by simpa using h]

theorem lookup_dupdate_self {α : Type} (d : List (String × α)) (k : String)
    (f : α → α) : (dupdate d k f).lookup k = (d.lookup k).map f := by
  induction d with
  | nil => rfl
  | cons kv rest ih =>
    obtain ⟨a, v⟩ := kv
    by_cases h : a = k
    · subst h
      simp only [dupdate, List.map_cons, beq_self_eq_true, if_true]
      rw [lookup_cons_self, lookup_cons_self]
      rfl
    · simp only [dupdate, List.map_cons]
      rw [show (a == k) = false by simpa using h]
      simp only [Bool.false_eq_true, if_false]
      rw [lookup_cons_ne k a v rest (fun hh => h hh.symm),
        lookup_cons_ne k a v _ (fun hh => h hh.symm)]
      exact ih

theorem lookup_dupdate_ne {α : Type} (d : List (String × α)) (k q : String)
    (f : α → α) (h : q ≠ k) :
    (dupdate d k f).lookup q = d.lookup q := by
  induction d with
  | nil => rfl
  | cons kv rest ih =>
    obtain ⟨a, v⟩ := kv
    by_cases hk : a = k
    · subst hk
      simp only [dupdate, List.map_cons, beq_self_eq_true, if_true]
      rw [lookup_cons_ne q a (f v) _ h, lookup_cons_ne q a v rest h]
      exact ih
    · simp only [dupdate, List.map_cons]
      rw [show (a == k) = false by simpa using hk]
      simp only [Bool.false_eq_true, if_false]
      by_cases hq : q = a
      · subst hq
        rw [lookup_cons_self, lookup_cons_self]
      · rw [lookup_cons_ne q a v _ hq, lookup_cons_ne q a v rest hq]
        exact ih

theorem lookup_dupdate_isSome {α : Type} (d : List (String × α))
    (k q : String) (f : α → α) :
    ((dupdate d k f).lookup q).isSome = (d.lookup q).isSome := by
  by_cases h : q = k
  · subst h; rw [lookup_dupdate_self]; cases d.lookup q <;> rfl
  · rw [lookup_dupdate_ne d k q f h]

/-! ### State-transformer lemmas for `update_image_status` -/

theorem uis_folder (dm : DM) (p st now : String) (e : Option PyError) :
    (update_image_status dm p st now e).folder = dm.folder := by
  obtain ⟨ws, fold, sv⟩ := dm
  cases ws with
  | none => rfl
  | some w =>
    by_cases h : (w.images.lookup p).isSome <;>
      simp [update_image_status, h]

theorem uis_unknown (dm : DM) (p st now : String) (e : Option PyError)
    (h : wsLookup dm p = none) : update_image_status dm p st now e = dm := by
  obtain ⟨ws, fold, sv⟩ := dm
  cases ws with
  | none => rfl
  | some w =>
    simp only [wsLookup] at h
    simp [update_image_status, h]

theorem uis_lookup_self (dm : DM) (p st now : String) (e : Option PyError)
    (r : ImageRecord) (h : wsLookup dm p = some r) :
    wsLookup (update_image_status dm p st now e) p =
      some { r with processing_status := statusWritten st now e } := by
  obtain ⟨ws, fold, sv⟩ := dm
  cases ws with
  | none => exact absurd h (by simp [wsLookup])
  | some w =>
    simp only [wsLookup] at h
    simp only [update_image_status, h, Option.isSome_some, if_true, wsLookup]
    rw [lookup_dupdate_self, h]
    rfl

theorem uis_lookup_ne (dm : DM) (p st now q : String) (e : Option PyError)
    (h : q ≠ p) :
    wsLookup (update_image_status dm p st now e) q = wsLookup dm q := by
  obtain ⟨ws, fold, sv⟩ := dm
  cases ws with
  | none => rfl
  | some w =>
    by_cases hk : (w.images.lookup p).isSome
    · simp only [update_image_status, hk, if_true, wsLookup]
      exact lookup_dupdate_ne w.images p q _ h
    · simp [update_image_status, hk]

theorem uis_lookup_isSome (dm : DM) (p st now q : String)
    (e : Option PyError) :
    (wsLookup (update_image_status dm p st now e) q).isSome =
      (wsLookup dm q).isSome := by
  by_cases h : q = p
  · subst h
    cases hr : wsLookup dm q with
    | none => rw [uis_unknown dm q st now e hr, hr]
    | some r =>
      rw [uis_lookup_self dm q st now e r hr]
      simp
  · rw [uis_lookup_ne dm p st now q e h]

/-! ### State-transformer lemmas for `update_extracted_data` -/

theorem ued_folder (dm : DM) (p : String) (data : List (String × JValue)) :
    (update_extracted_data dm p data).folder = dm.folder := by
  obtain ⟨ws, fold, sv⟩ := dm
  cases ws with
  | none => rfl
  | some w =>
    by_cases h : (w.images.lookup
        (resolveKey (DM.mk (some w) fold sv).folder p)).isSome <;>
      simp [update_extracted_data, h]

theorem ued_unknown (dm : DM) (p : String) (data : List (String × JValue))
    (h : wsLookup dm (resolveKey dm.folder p) = none) :
    update_extracted_data dm p data = dm := by
  obtain ⟨ws, fold, sv⟩ := dm
  cases ws with
  | none => rfl
  | some w =>
    simp only [wsLookup] at h
    simp [update_extracted_data, h]

theorem ued_lookup_self (dm : DM) (p : String)
    (data : List (String × JValue)) (r : ImageRecord)
    (h : wsLookup dm (resolveKey dm.folder p) = some r) :
    wsLookup (update_extracted_data dm p data) (resolveKey dm.folder p) =
      some { r with
        extracted_data := data
        processing_status := { r.processing_status with status := "completed" }
        validation := { r.validation with is_valid := true } } := by
  obtain ⟨ws, fold, sv⟩ := dm
  cases ws with
  | none => exact absurd h (by simp [wsLookup])
  | some w =>
    simp only [wsLookup] at h
    simp only [update_extracted_data, h, Option.isSome_some, if_true, wsLookup]
    rw [lookup_dupdate_self, h]
    rfl

theorem ued_lookup_ne (dm : DM) (p q : String)
    (data : List (String × JValue)) (h : q ≠ resolveKey dm.folder p) :
    wsLookup (update_extracted_data dm p data) q = wsLookup dm q := by
  obtain ⟨ws, fold, sv⟩ := dm
  cases ws with
  | none => rfl
  | some w =>
    simp only [wsLookup] at h ⊢
    by_cases hk : (w.images.lookup
        (resolveKey (DM.mk (some w) fold sv).folder p)).isSome
    · simp only [update_extracted_data, hk, if_true]
      exact lookup_dupdate_ne w.images _ q _ h
    · simp [update_extracted_data, hk]

theorem ued_lookup_isSome (dm : DM) (p q : String)
    (data : List (String × JValue)) :
    (wsLookup (update_extracted_data dm p data) q).isSome =
      (wsLookup dm q).isSome := by
  by_cases h : q = resolveKey dm.folder p
  · subst h
    cases hr : wsLookup dm (resolveKey dm.folder p) with
    | none => rw [ued_unknown dm p data hr, hr]
    | some r =>
      rw [ued_lookup_self dm p data r hr]
      simp
  · rw [ued_lookup_ne dm p q data h]

/-! ### Batch-loop invariants -/

theorem processItems_nonfatal_spec (oracle : String → Outcome) (now : String)
    (l : List String) :
    ∀ (dm : DM) (ps : ProcState) (acc : List String),
    ps.cancelled = false →
    (∀ p ∈ l, ∀ c msg, oracle p = .err c msg → c.isFatal = false) →
    (∀ p ∈ l, (wsLookup dm p).isSome) →
    (∀ p ∈ l, resolveKey dm.folder p = p) →
    l.Nodup →
    (processItems oracle now l dm ps acc).2.2.1 = acc.reverse ++ l ∧
    (processItems oracle now l dm ps acc).2.2.2 = none ∧
    (processItems oracle now l dm ps acc).2.1.progress =
      ps.progress + l.countP (fun p => (oracle p).isOk) ∧
    (∀ q, q ∉ l →
      wsLookup (processItems oracle now l dm ps acc).1 q = wsLookup dm q) ∧
    (∀ p ∈ l, ∃ r,
      wsLookup (processItems oracle now l dm ps acc).1 p = some r ∧
      (r.processing_status.status = "completed" ∨
        r.processing_status.status = "error")) := by
  induction l with
  | nil =>
    intro dm ps acc hc hnf hk hres hnd
    simp [processItems]
  | cons p rest ih =>
    intro dm ps acc hc hnf hk hres hnd
    have hpmem : p ∈ p :: rest := List.mem_cons_self p rest
    obtain ⟨r0, hr0⟩ := Option.isSome_iff_exists.mp (hk p hpmem)
    have hfold1 : (update_image_status dm p "processing" now none).folder
        = dm.folder := uis_folder dm p "processing" now none
    have hndr : rest.Nodup := (List.nodup_cons.mp hnd).2
    have hpnr : p ∉ rest := (List.nodup_cons.mp hnd).1
    cases ho : oracle p with
    | ok data =>
      simp only [processItems, hc, Bool.false_eq_true, if_false, ho]
      set dm1 := update_image_status dm p "processing" now none with hdm1
      set dm2 := update_extracted_data dm1 p data with hdm2
      set ps1 : ProcState :=
        { queue := ps.queue.erase p, isProcessing := ps.isProcessing,
          progress := ps.progress + 1, total := ps.total, cancelled := false }
        with hps1
      have hk1 : ∀ q ∈ rest, (wsLookup dm2 q).isSome := by
        intro q hq
        rw [hdm2, ued_lookup_isSome, hdm1, uis_lookup_isSome]
        exact hk q (List.mem_cons_of_mem p hq)
      have hfold2 : dm2.folder = dm.folder := by
        rw [hdm2, ued_folder, hdm1, uis_folder]
      have hres1 : ∀ q ∈ rest, resolveKey dm2.folder q = q := by
        intro q hq
        rw [hfold2]
        exact hres q (List.mem_cons_of_mem p hq)
      have hnf1 : ∀ q ∈ rest, ∀ c msg, oracle q = .err c msg →
          c.isFatal = false := fun q hq =>
        hnf q (List.mem_cons_of_mem p hq)
      have hlook1 : wsLookup dm1 p =
          some { r0 with processing_status := statusWritten "processing" now none } :=
        uis_lookup_self dm p "processing" now none r0 hr0
      have hresp : resolveKey dm1.folder p = p := by
        rw [hfold1]; exact hres p hpmem
      have hlook2 : wsLookup dm2 p = some
          { r0 with
            processing_status :=
              { statusWritten "processing" now none with status := "completed" }
            extracted_data := data
            validation := { r0.validation with is_valid := true } } := by
        rw [hdm2]
        have := ued_lookup_self dm1 p data _ (by rw [hresp]; exact hlook1)
        rw [hresp] at this
        exact this
      obtain ⟨ih1, ih2, ih3, ih4, ih5⟩ :=
        ih dm2 ps1 (p :: acc) rfl hnf1 hk1 hres1 hndr
      refine ⟨?_, ih2, ?_, ?_, ?_⟩
      · rw [ih1]; simp
      · rw [ih3, hps1]
        simp [List.countP_cons, ho, Outcome.isOk]
        omega
      · intro q hq
        have hqr : q ∉ rest := fun hh => hq (List.mem_cons_of_mem p hh)
        have hqp : q ≠ p := fun hh => hq (hh ▸ hpmem)
        rw [ih4 q hqr, hdm2, ued_lookup_ne dm1 p q data (by rw [hresp]; exact hqp),
          hdm1, uis_lookup_ne dm p "processing" now q none hqp]
      · intro q hq
        rcases List.mem_cons.mp hq with hqe | hqr
        · subst hqe
          exact ⟨_, (ih4 q hpnr).trans hlook2, Or.inl rfl⟩
        · exact ih5 q hqr
    | err c msg =>
      have hcf : c.isFatal = false := hnf p hpmem c msg ho
      simp only [processItems, hc, Bool.false_eq_true, if_false, ho, hcf]
      set dm1 := update_image_status dm p "processing" now none with hdm1
      set dm2 := update_image_status dm1 p "error" now
        (some (outcomeError c msg)) with hdm2
      have hk1 : ∀ q ∈ rest, (wsLookup dm2 q).isSome := by
        intro q hq
        rw [hdm2, uis_lookup_isSome, hdm1, uis_lookup_isSome]
        exact hk q (List.mem_cons_of_mem p hq)
      have hfold2 : dm2.folder = dm.folder := by
        rw [hdm2, uis_folder, hdm1, uis_folder]
      have hres1 : ∀ q ∈ rest, resolveKey dm2.folder q = q := by
        intro q hq
        rw [hfold2]
        exact hres q (List.mem_cons_of_mem p hq)
      have hnf1 : ∀ q ∈ rest, ∀ c msg, oracle q = .err c msg →
          c.isFatal = false := fun q hq =>
        hnf q (List.mem_cons_of_mem p hq)
      have hlook1 : wsLookup dm1 p =
          some { r0 with processing_status := statusWritten "processing" now none } :=
        uis_lookup_self dm p "processing" now none r0 hr0
      have hlook2 : wsLookup dm2 p = some
          { r0 with processing_status :=
              statusWritten "error" now (some (outcomeError c msg)) } := by
        rw [hdm2]
        have h2 := uis_lookup_self dm1 p "error" now
          (some (outcomeError c msg)) _ hlook1
        exact h2
      obtain ⟨ih1, ih2, ih3, ih4, ih5⟩ :=
        ih dm2 ps (p :: acc) hc hnf1 hk1 hres1 hndr
      refine ⟨?_, ih2, ?_, ?_, ?_⟩
      · rw [ih1]; simp
      · rw [ih3]
        simp [List.countP_cons, ho, Outcome.isOk]
      · intro q hq
        have hqr : q ∉ rest := fun hh => hq (List.mem_cons_of_mem p hh)
        have hqp : q ≠ p := fun hh => hq (hh ▸ hpmem)
        rw [ih4 q hqr, hdm2,
          uis_lookup_ne dm1 p "error" now q (some (outcomeError c msg)) hqp,
          hdm1, uis_lookup_ne dm p "processing" now q none hqp]
      · intro q hq
        rcases List.mem_cons.mp hq with hqe | hqr
        · subst hqe
          exact ⟨_, (ih4 q hpnr).trans hlook2, Or.inr rfl⟩
        · exact ih5 q hqr

theorem processItems_fatal_spec (oracle : String → Outcome) (now : String)
    (k : String) (post : List String) (c : ErrClass) (msg : String)
    (pre : List String) :
    ∀ (dm : DM) (ps : ProcState) (acc : List String),
    ps.cancelled = false →
    (∀ p ∈ pre, ∀ c' msg', oracle p = .err c' msg' → c'.isFatal = false) →
    (∀ p ∈ pre, (wsLookup dm p).isSome) →
    (∀ p ∈ pre, resolveKey dm.folder p = p) →
    (wsLookup dm k).isSome →
    oracle k = .err c msg →
    c.isFatal = true →
    (processItems oracle now (pre ++ k :: post) dm ps acc).2.2.1 =
      acc.reverse ++ pre ++ [k] ∧
    (processItems oracle now (pre ++ k :: post) dm ps acc).2.2.2 = some c ∧
    (∃ r, wsLookup
        (processItems oracle now (pre ++ k :: post) dm ps acc).1 k = some r ∧
      r.processing_status.status = "error") ∧
    (∀ q, q ∉ pre → q ≠ k →
      wsLookup (processItems oracle now (pre ++ k :: post) dm ps acc).1 q =
        wsLookup dm q) := by
  induction pre with
  | nil =>
    intro dm ps acc hc hnf hk hres hkk ho hcf
    obtain ⟨r0, hr0⟩ := Option.isSome_iff_exists.mp hkk
    have hlook1 : wsLookup (update_image_status dm k "processing" now none) k =
        some { r0 with processing_status := statusWritten "processing" now none } :=
      uis_lookup_self dm k "processing" now none r0 hr0
    have hlook2 : wsLookup (update_image_status
        (update_image_status dm k "processing" now none) k "error" now
        (some (outcomeError c msg))) k = some
        { r0 with processing_status :=
            statusWritten "error" now (some (outcomeError c msg)) } := by
      have h2 := uis_lookup_self
        (update_image_status dm k "processing" now none) k "error" now
        (some (outcomeError c msg)) _ hlook1
      exact h2
    have hstep : processItems oracle now ([] ++ k :: post) dm ps acc =
        (update_image_status (update_image_status dm k "processing" now none)
          k "error" now (some (outcomeError c msg)),
          ps, (k :: acc).reverse, some c) := by
      simp only [List.nil_append, processItems, hc, Bool.false_eq_true,
        if_false, ho, hcf, if_true]
    rw [hstep]
    refine ⟨by simp, rfl, ⟨_, hlook2, rfl⟩, ?_⟩
    intro q hqpre hqk
    show wsLookup (update_image_status
      (update_image_status dm k "processing" now none) k "error" now
      (some (outcomeError c msg))) q = wsLookup dm q
    rw [uis_lookup_ne _ k "error" now q (some (outcomeError c msg)) hqk,
      uis_lookup_ne dm k "processing" now q none hqk]
  | cons p pre' ih =>
    intro dm ps acc hc hnf hk hres hkk ho hcf
    have hpmem : p ∈ p :: pre' := List.mem_cons_self p pre'
    obtain ⟨r0, hr0⟩ := Option.isSome_iff_exists.mp (hk p hpmem)
    cases hop : oracle p with
    | ok data =>
      set dm1 := update_image_status dm p "processing" now none with hdm1
      set dm2 := update_extracted_data dm1 p data with hdm2
      set ps1 : ProcState :=
        { queue := ps.queue.erase p, isProcessing := ps.isProcessing,
          progress := ps.progress + 1, total := ps.total, cancelled := false }
        with hps1
      have hstep : processItems oracle now ((p :: pre') ++ k :: post) dm ps acc
          = processItems oracle now (pre' ++ k :: post) dm2 ps1 (p :: acc) := by
        rw [hdm2, hdm1, hps1]
        simp only [List.cons_append, processItems, hc, Bool.false_eq_true,
          if_false, hop, List.append_eq]
      have hfold2 : dm2.folder = dm.folder := by
        rw [hdm2, ued_folder, hdm1, uis_folder]
      have hresp : resolveKey dm1.folder p = p := by
        rw [hdm1, uis_folder]; exact hres p hpmem
      have hk1 : ∀ q ∈ pre', (wsLookup dm2 q).isSome := by
        intro q hq
        rw [hdm2, ued_lookup_isSome, hdm1, uis_lookup_isSome]
        exact hk q (List.mem_cons_of_mem p hq)
      have hkk1 : (wsLookup dm2 k).isSome := by
        rw [hdm2, ued_lookup_isSome, hdm1, uis_lookup_isSome]
        exact hkk
      obtain ⟨ih1, ih2, ih3, ih4⟩ := ih dm2 ps1 (p :: acc) rfl
        (fun q hq => hnf q (List.mem_cons_of_mem p hq)) hk1
        (fun q hq => by rw [hfold2]; exact hres q (List.mem_cons_of_mem p hq))
        hkk1 ho hcf
      rw [hstep]
      refine ⟨?_, ih2, ih3, ?_⟩
      · rw [ih1]; simp
      · intro q hqpre hqk
        have hqp : q ≠ p := fun hh => hqpre (hh ▸ hpmem)
        have hqpre' : q ∉ pre' := fun hh => hqpre (List.mem_cons_of_mem p hh)
        rw [ih4 q hqpre' hqk, hdm2,
          ued_lookup_ne dm1 p q data (by rw [hresp]; exact hqp),
          hdm1, uis_lookup_ne dm p "processing" now q none hqp]
    | err c' msg' =>
      have hcf' : c'.isFatal = false := hnf p hpmem c' msg' hop
      set dm1 := update_image_status dm p "processing" now none with hdm1
      set dm2 := update_image_status dm1 p "error" now
        (some (outcomeError c' msg')) with hdm2
      have hstep : processItems oracle now ((p :: pre') ++ k :: post) dm ps acc
          = processItems oracle now (pre' ++ k :: post) dm2 ps (p :: acc) := by
        rw [hdm2, hdm1]
        simp only [List.cons_append, processItems, hc, Bool.false_eq_true,
          if_false, hop, hcf', List.append_eq]
      have hfold2 : dm2.folder = dm.folder := by
        rw [hdm2, uis_folder, hdm1, uis_folder]
      have hk1 : ∀ q ∈ pre', (wsLookup dm2 q).isSome := by
        intro q hq
        rw [hdm2, uis_lookup_isSome, hdm1, uis_lookup_isSome]
        exact hk q (List.mem_cons_of_mem p hq)
      have hkk1 : (wsLookup dm2 k).isSome := by
        rw [hdm2, uis_lookup_isSome, hdm1, uis_lookup_isSome]
        exact hkk
      obtain ⟨ih1, ih2, ih3, ih4⟩ := ih dm2 ps (p :: acc) hc
        (fun q hq => hnf q (List.mem_cons_of_mem p hq)) hk1
        (fun q hq => by rw [hfold2]; exact hres q (List.mem_cons_of_mem p hq))
        hkk1 ho hcf
      rw [hstep]
      refine ⟨?_, ih2, ih3, ?_⟩
      · rw [ih1]; simp
      · intro q hqpre hqk
        have hqp : q ≠ p := fun hh => hqpre (hh ▸ hpmem)
        have hqpre' : q ∉ pre' := fun hh => hqpre (List.mem_cons_of_mem p hh)
        rw [ih4 q hqpre' hqk, hdm2,
          uis_lookup_ne dm1 p "error" now q (some (outcomeError c' msg')) hqp,
          hdm1, uis_lookup_ne dm p "processing" now q none hqp]

/-! ### Concrete fixtures for the batch claims -/

/-- A pending record for the file `name` in folder `/f`, as created on
first discovery. -/
def sampleRecord (name : String) : ImageRecord :=
  fresh_image_record "/f" { name := name, size := 10, ctime := "t0" }

def c1xdm : DM :=
  { ws := some { output_format := default_output_format,
                 images := [("a.jpg", sampleRecord "a.jpg")] }
    folder := some "/f", saves := 0 }

def c1xps : ProcState :=
  { queue := ["a.jpg"], isProcessing := false, progress := 0, total := 0,
    cancelled := false }

def c1xoracle : String → Outcome := fun _ => .err .PROCESSING_ERROR "boom"

def c1dm : DM :=
  { ws := some { output_format := default_output_format,
                 images := [("a.jpg", sampleRecord "a.jpg"),
                            ("b.jpg", sampleRecord "b.jpg")] }
    folder := some "/f", saves := 0 }

def c1ps : ProcState :=
  { queue := ["a.jpg", "b.jpg"], isProcessing := false, progress := 0,
    total := 0, cancelled := false }

def c1oracle : String → Outcome := fun p =>
  if p == "a.jpg" then .ok [("Store Name", .str "A")]
  else .err .PROCESSING_ERROR "boom"

def c2dm : DM :=
  { ws := some { output_format := default_output_format,
                 images := [("a.jpg", sampleRecord "a.jpg"),
                            ("b.jpg", sampleRecord "b.jpg"),
                            ("c.jpg", sampleRecord "c.jpg")] }
    folder := some "/f", saves := 0 }

def c2ps : ProcState :=
  { queue := ["a.jpg", "b.jpg", "c.jpg"], isProcessing := false,
    progress := 0, total := 0, cancelled := false }

def c2oracle : String → Outcome := fun p =>
  if p == "b.jpg" then .err .QUOTA_EXCEEDED "quota"
  else .ok [("Store Name", .str "A")]

/-! ### Claims C1 and C2: batch runs.

The queue paths are taken to be exactly the record keys of the loaded
document (for the non-recursive folder scan these are plain file names,
which `resolveKey` maps to themselves). -/

/-- C1 (counterexample): one enqueued path, its only failure of class
PROCESSING_ERROR (non-fatal), yet the progress counter at the end of the
loop is 0, not N = 1 — `_current_progress` is incremented only on the
success path of the loop body (image_processor.py line 83 is skipped by
the `except` handler), so `progress().current` never reaches N in a batch
with a non-fatal failure; the record itself does end in `error` status. -/
theorem batch_progress_misses_total :
    c1xps.queue.length = 1 ∧
    c1xoracle "a.jpg" = .err .PROCESSING_ERROR "boom" ∧
    ErrClass.PROCESSING_ERROR.isFatal = false ∧
    (process_queue c1xoracle "t1" true c1xdm c1xps).loopProgress = 0 ∧
    ((wsLookup (process_queue c1xoracle "t1" true c1xdm c1xps).dm
        "a.jpg").map (fun r => r.processing_status.status)) = some "error" := by
  decide

/-- C1 (amended): in a batch run over the enqueued record keys in which
every failure is non-fatal, `process_queue` attempts every enqueued path
in enqueue order and returns normally, every enqueued record ends the run
with status `completed` or `error`, and the progress counter at the end
of the loop equals the number of successfully processed items (not N). -/
theorem batch_nonfatal_run (oracle : String → Outcome) (now : String)
    (dm : DM) (ps : ProcState)
    (hrun : ps.isProcessing = false)
    (hne : ps.queue ≠ [])
    (hc : ps.cancelled = false)
    (hnf : ∀ p ∈ ps.queue, ∀ c msg, oracle p = .err c msg → c.isFatal = false)
    (hk : ∀ p ∈ ps.queue, (wsLookup dm p).isSome)
    (hres : ∀ p ∈ ps.queue, resolveKey dm.folder p = p)
    (hnd : ps.queue.Nodup) :
    (process_queue oracle now true dm ps).attempts = ps.queue ∧
    (process_queue oracle now true dm ps).returned = some true ∧
    (process_queue oracle now true dm ps).loopProgress =
      ps.queue.countP (fun p => (oracle p).isOk) ∧
    (∀ p ∈ ps.queue, ∃ r,
      wsLookup (process_queue oracle now true dm ps).dm p = some r ∧
      (r.processing_status.status = "completed" ∨
        r.processing_status.status = "error")) := by
  have hq : ps.queue.isEmpty = false := by
    cases hql : ps.queue with
    | nil => exact absurd hql hne
    | cons a l => rfl
  obtain ⟨s1, s2, s3, s4, s5⟩ :=
    processItems_nonfatal_spec oracle now ps.queue dm
      { queue := ps.queue, isProcessing := true, progress := 0,
        total := ps.queue.length, cancelled := ps.cancelled } [] hc hnf hk
      hres hnd
  simp only [process_queue, hrun, hq, Bool.false_eq_true, if_false,
    Bool.not_true]
  refine ⟨by rw [s1]; simp, by rw [s2]; rfl, by rw [s3]; simp, ?_⟩
  intro p hp
  exact s5 p hp

/-- C1 (witness): a two-item batch where the first item succeeds and the
second fails non-fatally. -/
theorem batch_nonfatal_run_witness :
    c1ps.queue ≠ [] ∧ c1ps.queue.Nodup ∧
    ((process_queue c1oracle "t1" true c1dm c1ps).attempts = c1ps.queue ∧
     (process_queue c1oracle "t1" true c1dm c1ps).returned = some true ∧
     (process_queue c1oracle "t1" true c1dm c1ps).loopProgress =
       c1ps.queue.countP (fun p => (c1oracle p).isOk) ∧
     (∀ p ∈ c1ps.queue, ∃ r,
       wsLookup (process_queue c1oracle "t1" true c1dm c1ps).dm p = some r ∧
       (r.processing_status.status = "completed" ∨
         r.processing_status.status = "error"))) :=
  ⟨by decide, by decide,
    batch_nonfatal_run c1oracle "t1" c1dm c1ps rfl (by decide) rfl
      (by
        intro p hp c msg h
        have hp' : p = "a.jpg" ∨ p = "b.jpg" := by simpa [c1ps] using hp
        rcases hp' with hp' | hp' <;> rw [hp'] at h
        · have he : c1oracle "a.jpg" = .ok [("Store Name", .str "A")] := rfl
          rw [he] at h
          exact Outcome.noConfusion h
        · have he : c1oracle "b.jpg" = .err .PROCESSING_ERROR "boom" := rfl
          rw [he] at h
          obtain ⟨hc1, hm1⟩ := Outcome.err.inj h
          rw [← hc1]
          rfl)
      (by decide) (by decide) (by decide)⟩

/-- C2 (confirmed): when item k of the enqueued keys fails with a fatal
class (invalid or missing credentials, or quota exceeded) and every item
before it fails at most non-fatally, the batch attempts exactly the items
up to and including k, marks record k `error`, leaves the records of the
remaining items exactly as they were before the batch, propagates the
fatal class to the caller as an exception (`returned = none`) distinctly
from per-item errors, and on exit the `finally` block clears the queue
and the progress counters and returns the processor to idle. -/
theorem batch_fatal_abort (oracle : String → Outcome) (now : String)
    (dm : DM) (ps : ProcState) (pre : List String) (k : String)
    (post : List String) (c : ErrClass) (msg : String)
    (hqeq : ps.queue = pre ++ k :: post)
    (hrun : ps.isProcessing = false)
    (hc : ps.cancelled = false)
    (hnf : ∀ p ∈ pre, ∀ c' msg', oracle p = .err c' msg' → c'.isFatal = false)
    (hkpre : ∀ p ∈ pre, (wsLookup dm p).isSome)
    (hres : ∀ p ∈ pre, resolveKey dm.folder p = p)
    (hkk : (wsLookup dm k).isSome)
    (ho : oracle k = .err c msg)
    (hcf : c.isFatal = true)
    (hnd : ps.queue.Nodup) :
    (process_queue oracle now true dm ps).attempts = pre ++ [k] ∧
    (process_queue oracle now true dm ps).fatal = some c ∧
    (process_queue oracle now true dm ps).returned = none ∧
    (∃ r, wsLookup (process_queue oracle now true dm ps).dm k = some r ∧
      r.processing_status.status = "error") ∧
    (∀ q ∈ post,
      wsLookup (process_queue oracle now true dm ps).dm q = wsLookup dm q) ∧
    (process_queue oracle now true dm ps).proc.queue = [] ∧
    (process_queue oracle now true dm ps).proc.progress = 0 ∧
    (process_queue oracle now true dm ps).proc.total = 0 ∧
    (process_queue oracle now true dm ps).proc.isProcessing = false := by
  have hq : (pre ++ k :: post).isEmpty = false := by
    cases pre <;> rfl
  have hnd' := hqeq ▸ hnd
  have hpost : ∀ q ∈ post, q ∉ pre ∧ q ≠ k := by
    intro q hqm
    obtain ⟨hnp, hnkp, hdisj⟩ := List.nodup_append.mp hnd'
    constructor
    · intro hqpre
      exact hdisj hqpre (List.mem_cons_of_mem k hqm)
    · intro hqk
      exact (List.nodup_cons.mp hnkp).1 (hqk ▸ hqm)
  obtain ⟨s1, s2, s3, s4⟩ :=
    processItems_fatal_spec oracle now k post c msg pre dm
      { queue := pre ++ k :: post, isProcessing := true, progress := 0,
        total := (pre ++ k :: post).length, cancelled := ps.cancelled } []
      hc hnf hkpre hres hkk ho hcf
  simp only [process_queue, hqeq, hrun, hq, Bool.false_eq_true, if_false,
    Bool.not_true]
  refine ⟨by rw [s1]; simp, by rw [s2], by rw [s2]; rfl, s3, ?_, by trivial,
    by trivial, by trivial, by trivial⟩
  intro q hqm
  obtain ⟨hqp, hqk⟩ := hpost q hqm
  exact s4 q hqp hqk

/-- C2 (witness): a three-item batch whose second item hits the quota
limit; the third record stays untouched. -/
theorem batch_fatal_abort_witness :
    c2ps.queue = ["a.jpg"] ++ "b.jpg" :: ["c.jpg"] ∧ c2ps.queue.Nodup ∧
    ErrClass.QUOTA_EXCEEDED.isFatal = true ∧
    ((process_queue c2oracle "t1" true c2dm c2ps).attempts =
        ["a.jpg"] ++ ["b.jpg"] ∧
     (process_queue c2oracle "t1" true c2dm c2ps).fatal =
        some .QUOTA_EXCEEDED ∧
     (process_queue c2oracle "t1" true c2dm c2ps).returned = none ∧
     (∃ r, wsLookup (process_queue c2oracle "t1" true c2dm c2ps).dm "b.jpg" =
        some r ∧ r.processing_status.status = "error") ∧
     (∀ q ∈ ["c.jpg"],
       wsLookup (process_queue c2oracle "t1" true c2dm c2ps).dm q =
         wsLookup c2dm q) ∧
     (process_queue c2oracle "t1" true c2dm c2ps).proc.queue = [] ∧
     (process_queue c2oracle "t1" true c2dm c2ps).proc.progress = 0 ∧
     (process_queue c2oracle "t1" true c2dm c2ps).proc.total = 0 ∧
     (process_queue c2oracle "t1" true c2dm c2ps).proc.isProcessing = false) :=
  ⟨rfl, by decide, rfl,
    batch_fatal_abort c2oracle "t1" c2dm c2ps ["a.jpg"] "b.jpg" ["c.jpg"]
      .QUOTA_EXCEEDED "quota" rfl rfl rfl
      (by
        intro p hp c' msg' h
        have hp' : p = "a.jpg" := by simpa using hp
        rw [hp'] at h
        have he : c2oracle "a.jpg" = .ok [("Store Name", .str "A")] := rfl
        rw [he] at h
        exact Outcome.noConfusion h)
      (by decide) (by decide) (by decide) rfl rfl (by decide)⟩

/-! ### Claims C9 and C10: record updates -/

theorem uis_saves_known (dm : DM) (p st now : String) (e : Option PyError)
    (r : ImageRecord) (h : wsLookup dm p = some r) :
    (update_image_status dm p st now e).saves = dm.saves + 1 := by
  obtain ⟨ws, fold, sv⟩ := dm
  cases ws with
  | none => exact absurd h (by simp [wsLookup])
  | some w =>
    simp only [wsLookup] at h
    simp [update_image_status, h]

def c9dm : DM :=
  { ws := some { output_format := default_output_format,
                 images := [("a.jpg", sampleRecord "a.jpg")] }
    folder := some "/f", saves := 0 }

/-- C9 (counterexample): a call with a key that is not in the document is a
silent no-op — the record fields are not set and, contrary to "always
persists", nothing is saved (`update_image_status` returns at line 222-223
before `_save_workspace`). -/
theorem update_status_unknown_key_no_persist :
    wsLookup c9dm "missing.jpg" = none ∧
    update_image_status c9dm "missing.jpg" "completed" "t1" none = c9dm ∧
    c9dm.saves = 0 := by decide

/-- C9 (amended): for a call whose key is present in the loaded document,
`update_image_status` sets the processing_status fields — status,
last_processed, and the error class name and message when an error is
supplied, cleared otherwise — and persists the document; a call with an
unknown key (or with no loaded document) changes nothing and does not
persist. -/
theorem update_status_spec (dm : DM) (p st now : String)
    (e : Option PyError) :
    (∀ r, wsLookup dm p = some r →
      wsLookup (update_image_status dm p st now e) p =
        some { r with processing_status :=
          { status := st
            last_processed := some now
            error_type := e.map (fun x => x.className)
            error_details := e.map (fun x => x.message) } } ∧
      (update_image_status dm p st now e).saves = dm.saves + 1) ∧
    (wsLookup dm p = none → update_image_status dm p st now e = dm) :=
  ⟨fun r h => ⟨uis_lookup_self dm p st now e r h, uis_saves_known dm p st now e r h⟩,
    uis_unknown dm p st now e⟩

/-- C9 (witness): updating the known key `a.jpg` with an error sets the
fields and bumps the persistence counter. -/
theorem update_status_spec_witness :
    wsLookup c9dm "a.jpg" = some (sampleRecord "a.jpg") ∧
    (wsLookup (update_image_status c9dm "a.jpg" "error" "t1"
        (some { className := "RuntimeError", message := "PROCESSING_ERROR:x" }))
        "a.jpg" =
      some { sampleRecord "a.jpg" with processing_status :=
        { status := "error"
          last_processed := some "t1"
          error_type := some "RuntimeError"
          error_details := some "PROCESSING_ERROR:x" } } ∧
     (update_image_status c9dm "a.jpg" "error" "t1"
        (some { className := "RuntimeError", message := "PROCESSING_ERROR:x" })).saves
       = c9dm.saves + 1) :=
  ⟨by decide,
    (update_status_spec c9dm "a.jpg" "error" "t1"
      (some { className := "RuntimeError", message := "PROCESSING_ERROR:x" })).1
      (sampleRecord "a.jpg") (by decide)⟩

/-- C10 (confirmed): for a call whose resolved key is present in the loaded
document, `update_extracted_data` replaces the record's entire
extracted_data mapping verbatim with the supplied mapping, sets
processing_status.status to `completed` and validation.is_valid to true
unconditionally (the mapping is arbitrary here), and leaves edit_history
untouched. -/
theorem update_extracted_data_spec (dm : DM) (p : String)
    (data : List (String × JValue)) (r : ImageRecord)
    (h : wsLookup dm (resolveKey dm.folder p) = some r) :
    ∃ r', wsLookup (update_extracted_data dm p data)
        (resolveKey dm.folder p) = some r' ∧
      r'.extracted_data = data ∧
      r'.processing_status.status = "completed" ∧
      r'.validation.is_valid = true ∧
      r'.edit_history = r.edit_history :=
  ⟨_, ued_lookup_self dm p data r h, rfl, rfl, rfl, rfl⟩

/-- C10 (witness): an update through the absolute path `/f/a.jpg` with an
arbitrary mapping. -/
theorem update_extracted_data_spec_witness :
    wsLookup c9dm (resolveKey c9dm.folder "/f/a.jpg") =
      some (sampleRecord "a.jpg") ∧
    (∃ r', wsLookup (update_extracted_data c9dm "/f/a.jpg"
        [("junk", .str "x")]) (resolveKey c9dm.folder "/f/a.jpg") = some r' ∧
      r'.extracted_data = [("junk", .str "x")] ∧
      r'.processing_status.status = "completed" ∧
      r'.validation.is_valid = true ∧
      r'.edit_history = (sampleRecord "a.jpg").edit_history) :=
  ⟨by decide,
    update_extracted_data_spec c9dm "/f/a.jpg" [("junk", .str "x")]
      (sampleRecord "a.jpg") (by decide)⟩

/-! ### Claim C4: image-backup rotation -/

/-- C4 (code_bug): two backups of the same original file `r.jpg`, taken one
second apart, both survive a cleanup pass.  The grouping key
`"_".join(name.split("_")[1:])` was meant (per the comment at
data_manager.py line 495) to strip the timestamp, but the timestamp
`%Y-%m-%d_%H%M%S` itself contains an underscore, so the key retains the
HHMMSS part, the two backups land in different groups, and the older one
is never deleted — violating "at most one backup per distinct original
filename". -/
theorem image_backup_cleanup_keeps_stale_backups :
    backupGroupKey (mkImageBackupName "2024-01-01" "100000" "r.jpg") =
      "100000_r.jpg" ∧
    backupGroupKey (mkImageBackupName "2024-01-01" "100001" "r.jpg") =
      "100001_r.jpg" ∧
    cleanup_image_backups
      [(mkImageBackupName "2024-01-01" "100000" "r.jpg", 1),
       (mkImageBackupName "2024-01-01" "100001" "r.jpg", 2)] =
      [(mkImageBackupName "2024-01-01" "100000" "r.jpg", 1),
       (mkImageBackupName "2024-01-01" "100001" "r.jpg", 2)] := by decide

/-! ### Claim C5: CSV export -/

def c5ws : Workspace :=
  { output_format := ["Store Name"]
    images := [("a.jpg", { sampleRecord "a.jpg" with
      extracted_data := [("Store Name", .str "A"), ("junk", .str "x")] })] }

/-- C5 (counterexample): a record carrying an extracted field not listed in
output_format makes the export fail, not silently omit the field —
`csv.DictWriter` is constructed with the default `extrasaction='raise'`
(data_manager.py line 314), so `writerow` raises `ValueError`, the
`except` handler makes `export_csv` return `False`, and only the header
written before the failure is in the file. -/
theorem export_csv_extra_field_fails :
    (export_csv c5ws).2 = false ∧
    (export_csv c5ws).1 = [["Store Name"]] := by decide

theorem writeRows_subset (fields : List String) :
    ∀ l : List (String × ImageRecord),
    (∀ kv ∈ l, ∀ fv ∈ kv.2.extracted_data, fields.contains fv.1 = true) →
    writeRows fields l =
      (l.map (fun kv =>
        fields.map (fun f => renderCell (kv.2.extracted_data.lookup f))),
       true) := by
  intro l
  induction l with
  | nil => intro h; rfl
  | cons kv rest ih =>
    intro h
    have hrow : dictWriterRow fields kv.2.extracted_data =
        some (fields.map (fun f =>
          renderCell (kv.2.extracted_data.lookup f))) := by
      unfold dictWriterRow
      rw [if_neg]
      simp only [List.any_eq_true, Bool.not_eq_true', not_exists, not_and]
      intro fv hfv
      have hh := h kv (List.mem_cons_self kv rest) fv hfv
      simpa using hh
    simp only [writeRows, hrow]
    rw [ih (fun x hx => h x (List.mem_cons_of_mem kv hx))]
    simp

/-- C5 (amended): when every extracted field of every record is listed in
output_format, the export succeeds with the header row equal to
output_format and one data row per record in document iteration order,
each cell rendered from the record's value for that column (absent keys
and nulls render as empty cells); a record with a field outside
output_format instead makes the export fail. -/
theorem export_csv_spec (w : Workspace)
    (h : ∀ kv ∈ w.images, ∀ fv ∈ kv.2.extracted_data,
      w.output_format.contains fv.1 = true) :
    export_csv w =
      (w.output_format ::
        w.images.map (fun kv =>
          w.output_format.map
            (fun f => renderCell (kv.2.extracted_data.lookup f))),
       true) := by
  unfold export_csv
  rw [writeRows_subset w.output_format w.images h]

def c5ws2 : Workspace :=
  { output_format :=
      ["Store Name", "Total Amount (currency symbol removed)"]
    images :=
      [("a.jpg", { sampleRecord "a.jpg" with extracted_data :=
        [("Store Name", .str "A"),
         ("Total Amount (currency symbol removed)", .int 100)] }),
       ("b.jpg", { sampleRecord "b.jpg" with extracted_data :=
        [("Store Name", .str "B"),
         ("Total Amount (currency symbol removed)", .int 200)] })] }

/-- C5 (witness): the two-record example of the specification exports a
header and exactly two data rows in column order. -/
theorem export_csv_spec_witness :
    (∀ kv ∈ c5ws2.images, ∀ fv ∈ kv.2.extracted_data,
      c5ws2.output_format.contains fv.1 = true) ∧
    export_csv c5ws2 =
      (c5ws2.output_format ::
        c5ws2.images.map (fun kv =>
          c5ws2.output_format.map
            (fun f => renderCell (kv.2.extracted_data.lookup f))),
       true) ∧
    (export_csv c5ws2).1 =
      [["Store Name", "Total Amount (currency symbol removed)"],
       ["A", "100"], ["B", "200"]] :=
  ⟨by decide, export_csv_spec c5ws2 (by decide), by decide⟩

/-! ### Claim C7: canonical field vocabulary -/

def c7dm : DM :=
  { ws := some { output_format := default_output_format,
                 images := [("a.jpg", sampleRecord "a.jpg")] }
    folder := some "/f", saves := 0 }

/-- C7 (counterexample): a service-response key outside both the mapping
table and the canonical vocabulary passes through
`field_mapping.get(key, key)` verbatim and is stored in the record's
extracted_data, so the stored keys are not a subset of the canonical
vocabulary. -/
theorem extracted_keys_escape_vocabulary :
    (convert_gemini_fields [("junk field", .str "x")]).lookup "junk field" =
      some (.str "x") ∧
    default_output_format.contains "junk field" = false ∧
    (wsLookup (update_extracted_data c7dm "a.jpg"
        (convert_gemini_fields [("junk field", .str "x")])) "a.jpg").map
      (fun r => r.extracted_data.lookup "junk field") =
      some (some (.str "x")) := by decide

theorem dinsert_key_pred {α : Type} (P : String → Prop)
    (d : List (String × α)) (k : String) (v : α)
    (hd : ∀ kv ∈ d, P kv.1) (hk : P k) :
    ∀ kv ∈ dinsert d k v, P kv.1 := by
  intro kv hkv
  unfold dinsert at hkv
  by_cases hc : d.any (fun x => x.1 == k)
  · rw [if_pos hc] at hkv
    obtain ⟨x, hx, hmap⟩ := List.mem_map.mp hkv
    by_cases hxk : (x.1 == k) = true
    · rw [if_pos hxk] at hmap
      rw [← hmap]
      exact hk
    · rw [if_neg hxk] at hmap
      rw [← hmap]
      exact hd x hx
  · rw [if_neg hc] at hkv
    rcases List.mem_append.mp hkv with hin | hone
    · exact hd kv hin
    · have : kv = (k, v) := by simpa using hone
      rw [this]
      exact hk

theorem foldl_dinsert_key_pred (P : String → Prop) (f : String → String)
    (l : List (String × JValue)) :
    ∀ acc, (∀ kv ∈ acc, P kv.1) → (∀ kv ∈ l, P (f kv.1)) →
    ∀ kv ∈ l.foldl (fun a x => dinsert a (f x.1) x.2) acc, P kv.1 := by
  induction l with
  | nil => intro acc hacc _; exact hacc
  | cons x rest ih =>
    intro acc hacc hl
    simp only [List.foldl_cons]
    exact ih (dinsert acc (f x.1) x.2)
      (dinsert_key_pred P acc (f x.1) x.2 hacc
        (hl x (List.mem_cons_self x rest)))
      (fun y hy => hl y (List.mem_cons_of_mem x hy))

theorem foldl_fill_key_pred (P : String → Prop) (fs : List String) :
    ∀ acc : List (String × JValue), (∀ kv ∈ acc, P kv.1) → (∀ f ∈ fs, P f) →
    ∀ kv ∈ fs.foldl (fun a f =>
      if (a.lookup f).isSome then a else dinsert a f JValue.null) acc,
      P kv.1 := by
  induction fs with
  | nil => intro acc hacc _; exact hacc
  | cons f rest ih =>
    intro acc hacc hfs
    simp only [List.foldl_cons]
    by_cases hlk : (acc.lookup f).isSome
    · rw [if_pos hlk]
      exact ih acc hacc (fun g hg => hfs g (List.mem_cons_of_mem f hg))
    · rw [if_neg hlk]
      exact ih (dinsert acc f JValue.null)
        (dinsert_key_pred P acc f JValue.null hacc
          (hfs f (List.mem_cons_self f rest)))
        (fun g hg => hfs g (List.mem_cons_of_mem f hg))

theorem field_mapping_value_canonical (k v : String)
    (h : field_mapping.lookup k = some v) : v ∈ default_output_format := by
  simp only [field_mapping, List.lookup] at h
  split at h
  · cases h; decide
  · split at h
    · cases h; decide
    · split at h
      · cases h; decide
      · split at h
        · cases h; decide
        · exact Option.noConfusion h

theorem mapped_key_not_legacy (k : String) :
    field_mapping.lookup ((field_mapping.lookup k).getD k) = none := by
  cases hlk : field_mapping.lookup k with
  | none => simpa using hlk
  | some v =>
    have hv := field_mapping_value_canonical k v hlk
    have hall : ∀ x ∈ default_output_format,
        field_mapping.lookup x = none := by decide
    simpa using hall v hv

/-- C7 (amended): every legacy key listed in the fixed mapping table is
rewritten before storage — no key of the converted mapping is a mapping
table key — and when every response key is either a mapping-table key or
already canonical, the converted keys are a subset of the canonical
vocabulary; an unknown response key, however, is stored verbatim. -/
theorem convert_fields_vocabulary (result : List (String × JValue))
    (h : ∀ kv ∈ result, (field_mapping.lookup kv.1).isSome = true ∨
      kv.1 ∈ default_output_format) :
    (∀ kv ∈ convert_gemini_fields result, kv.1 ∈ default_output_format) ∧
    (∀ kv ∈ convert_gemini_fields result,
      field_mapping.lookup kv.1 = none) := by
  constructor
  · unfold convert_gemini_fields
    refine foldl_fill_key_pred (fun key => key ∈ default_output_format)
      gemini_required_fields _ ?_ (by decide)
    refine foldl_dinsert_key_pred (fun key => key ∈ default_output_format)
      (fun key => (field_mapping.lookup key).getD key) result []
      (by intro kv hkv; exact absurd hkv (List.not_mem_nil kv)) ?_
    intro kv hkv
    show (field_mapping.lookup kv.1).getD kv.1 ∈ default_output_format
    rcases h kv hkv with hm | hcan
    · obtain ⟨v, hv⟩ := Option.isSome_iff_exists.mp hm
      rw [hv, Option.getD_some]
      exact field_mapping_value_canonical kv.1 v hv
    · cases hlk : field_mapping.lookup kv.1 with
      | none => simpa using hcan
      | some v =>
        rw [Option.getD_some]
        exact field_mapping_value_canonical kv.1 v hlk
  · unfold convert_gemini_fields
    refine foldl_fill_key_pred (fun key => field_mapping.lookup key = none)
      gemini_required_fields _ ?_ (by decide)
    refine foldl_dinsert_key_pred (fun key => field_mapping.lookup key = none)
      (fun key => (field_mapping.lookup key).getD key) result []
      (by intro kv hkv; exact absurd hkv (List.not_mem_nil kv)) ?_
    intro kv hkv
    exact mapped_key_not_legacy kv.1

/-- C7 (witness): a response using a table legacy name and a canonical
name converts to canonical-only keys with no legacy name stored. -/
theorem convert_fields_vocabulary_witness :
    (∀ kv ∈ [(("10% Tax Amount" : String), JValue.int 5),
             (("Store Name" : String), JValue.str "A")],
      (field_mapping.lookup kv.1).isSome = true ∨
        kv.1 ∈ default_output_format) ∧
    ((∀ kv ∈ convert_gemini_fields
        [("10% Tax Amount", .int 5), ("Store Name", .str "A")],
      kv.1 ∈ default_output_format) ∧
     (∀ kv ∈ convert_gemini_fields
        [("10% Tax Amount", .int 5), ("Store Name", .str "A")],
      field_mapping.lookup kv.1 = none)) :=
  ⟨by decide,
    convert_fields_vocabulary
      [("10% Tax Amount", .int 5), ("Store Name", .str "A")] (by decide)⟩

/-! ### Claim C8: folder open and record keys -/

theorem dkeys_dupdate {α : Type} (d : List (String × α)) (k : String)
    (f : α → α) : dkeys (dupdate d k f) = dkeys d := by
  induction d with
  | nil => rfl
  | cons kv rest ih =>
    obtain ⟨a, v⟩ := kv
    cases h : a == k with
    | true =>
      have ha : a = k := by simpa using h
      subst ha
      simp only [dupdate, dkeys, List.map_cons, beq_self_eq_true, if_true]
      have ih' := ih
      simp only [dupdate, dkeys] at ih'
      rw [ih']
    | false =>
      simp only [dupdate, dkeys, List.map_cons, h, Bool.false_eq_true,
        if_false]
      have ih' := ih
      simp only [dupdate, dkeys] at ih'
      rw [ih']

theorem lookup_isSome_iff_mem {α : Type} (d : List (String × α))
    (k : String) : (d.lookup k).isSome = true ↔ k ∈ dkeys d := by
  induction d with
  | nil => simp [dkeys, List.lookup]
  | cons kv rest ih =>
    obtain ⟨a, v⟩ := kv
    by_cases h : k = a
    · subst h
      simp [dkeys, lookup_cons_self]
    · rw [lookup_cons_ne k a v rest h]
      simp only [dkeys, List.map_cons, List.mem_cons]
      constructor
      · intro hh
        exact Or.inr ((ih.mp) hh)
      · intro hh
        rcases hh with hh | hh
        · exact absurd hh h
        · exact ih.mpr hh

theorem keys_get_or_create (w : Workspace) (folder : String)
    (f : FolderFile) :
    dkeys (get_or_create_image_info w folder f).1.images =
      if (w.images.lookup f.name).isSome then dkeys w.images
      else dkeys w.images ++ [f.name] := by
  unfold get_or_create_image_info
  cases hl : w.images.lookup f.name with
  | some r =>
    simp only [hl, Option.isSome_some, if_true]
    exact dkeys_dupdate w.images f.name _
  | none =>
    simp only [hl, Option.isSome_none, Bool.false_eq_true, if_false]
    simp [dkeys]

theorem mem_keys_load_images (folder : String) (files : List FolderFile) :
    ∀ (w : Workspace) (k : String),
    k ∈ dkeys (load_images w folder files).1.images ↔
      (k ∈ dkeys w.images ∨
        ∃ f ∈ files, isImageFile f.name = true ∧ f.name = k) := by
  induction files with
  | nil =>
    intro w k
    simp [load_images]
  | cons f rest ih =>
    intro w k
    by_cases hf : isImageFile f.name = true
    · rw [show (load_images w folder (f :: rest)).1 =
          (load_images (get_or_create_image_info w folder f).1 folder
            rest).1 from by simp [load_images, hf]]
      rw [ih]
      rw [keys_get_or_create]
      by_cases hl : (w.images.lookup f.name).isSome = true
      · rw [if_pos hl]
        have hfn : f.name ∈ dkeys w.images :=
          (lookup_isSome_iff_mem w.images f.name).mp hl
        constructor
        · rintro (hk | ⟨g, hg, hgi, hgn⟩)
          · exact Or.inl hk
          · exact Or.inr ⟨g, List.mem_cons_of_mem f hg, hgi, hgn⟩
        · rintro (hk | ⟨g, hg, hgi, hgn⟩)
          · exact Or.inl hk
          · rcases List.mem_cons.mp hg with hgf | hgr
            · subst hgf
              exact Or.inl (hgn ▸ hfn)
            · exact Or.inr ⟨g, hgr, hgi, hgn⟩
      · rw [if_neg hl]
        constructor
        · rintro (hk | ⟨g, hg, hgi, hgn⟩)
          · rcases List.mem_append.mp hk with hk | hk
            · exact Or.inl hk
            · have hkf : k = f.name := by simpa using hk
              exact Or.inr ⟨f, List.mem_cons_self f rest, hf, hkf.symm⟩
          · exact Or.inr ⟨g, List.mem_cons_of_mem f hg, hgi, hgn⟩
        · rintro (hk | ⟨g, hg, hgi, hgn⟩)
          · exact Or.inl (List.mem_append.mpr (Or.inl hk))
          · rcases List.mem_cons.mp hg with hgf | hgr
            · subst hgf
              exact Or.inl (List.mem_append.mpr (Or.inr (by simp [hgn])))
            · exact Or.inr ⟨g, hgr, hgi, hgn⟩
    · rw [show load_images w folder (f :: rest) = load_images w folder rest
          from by simp [load_images, hf]]
      rw [ih]
      constructor
      · rintro (hk | ⟨g, hg, hgi, hgn⟩)
        · exact Or.inl hk
        · exact Or.inr ⟨g, List.mem_cons_of_mem f hg, hgi, hgn⟩
      · rintro (hk | ⟨g, hg, hgi, hgn⟩)
        · exact Or.inl hk
        · rcases List.mem_cons.mp hg with hgf | hgr
          · subst hgf
            exact absurd hgi hf
          · exact Or.inr ⟨g, hgr, hgi, hgn⟩

def c8doc : Workspace :=
  { output_format := default_output_format
    images := [("gone.jpg", sampleRecord "gone.jpg")] }

def c8files : List FolderFile := [{ name := "a.jpg", size := 5, ctime := "t0" }]

/-- C8 (counterexample): opening a folder that contains only `a.jpg` with a
document still holding a record for the removed file `gone.jpg` leaves
both keys in the document — records are never deleted by the scan, so the
key set after `open` is a strict superset of the image files present. -/
theorem open_folder_keeps_stale_keys :
    dkeys (open_folder (some c8doc) "/f" c8files).1.images =
      ["gone.jpg", "a.jpg"] ∧
    (c8files.filter (fun f => isImageFile f.name)).map
      (fun f => f.name) = ["a.jpg"] ∧
    ("gone.jpg" = "a.jpg") = False := by decide

/-- C8 (amended): after `open`, the key set of the document equals the
union of the keys loaded from the pre-existing document and the names of
the image files present in the folder; it equals the set of present image
files exactly when every pre-existing key still names a present image
file — in particular for a fresh document. -/
theorem open_folder_keys (loaded : Option Workspace) (folder : String)
    (files : List FolderFile) :
    (∀ k, k ∈ dkeys (open_folder loaded folder files).1.images ↔
      (k ∈ dkeys (loaded.getD
          { output_format := default_output_format, images := [] }).images ∨
        ∃ f ∈ files, isImageFile f.name = true ∧ f.name = k)) ∧
    ((∀ k0 ∈ dkeys (loaded.getD
          { output_format := default_output_format, images := [] }).images,
        ∃ f ∈ files, isImageFile f.name = true ∧ f.name = k0) →
      ∀ k, k ∈ dkeys (open_folder loaded folder files).1.images ↔
        ∃ f ∈ files, isImageFile f.name = true ∧ f.name = k) := by
  constructor
  · intro k
    exact mem_keys_load_images folder files _ k
  · intro hsub k
    have hiff := mem_keys_load_images folder files
      (loaded.getD { output_format := default_output_format, images := [] }) k
    constructor
    · intro hk
      rcases hiff.mp hk with hk' | hex
      · exact hsub k hk'
      · exact hex
    · intro hex
      exact hiff.mpr (Or.inr hex)

/-- C8 (witness): opening a fresh folder containing one image file yields
exactly that file's name as the key set. -/
theorem open_folder_keys_witness :
    (∀ k0 ∈ dkeys ((none : Option Workspace).getD
        { output_format := default_output_format, images := [] }).images,
      ∃ f ∈ c8files, isImageFile f.name = true ∧ f.name = k0) ∧
    (∀ k, k ∈ dkeys (open_folder none "/f" c8files).1.images ↔
      ∃ f ∈ c8files, isImageFile f.name = true ∧ f.name = k) :=
  ⟨by intro k0 hk0; exact absurd hk0 (by simp [dkeys]),
    (open_folder_keys none "/f" c8files).2
      (by intro k0 hk0; exact absurd hk0 (by simp [dkeys]))⟩

/-! ### Claims C3 and C6: rename ordering and refusals -/

theorem rename_trace_cases (env : RenameEnv) (rec : ImageRecord) :
    ((rename_image env rec).trace = [] ∧
      (rename_image env rec).ok = false) ∨
    (∃ b, (rename_image env rec).trace = [.backupImage b] ∧
      (rename_image env rec).ok = false) ∨
    (∃ b ko kn, (rename_image env rec).trace =
        [.backupImage b, .docKeyUpdate ko kn] ∧
      (rename_image env rec).ok = false) ∨
    (∃ b o n, (rename_image env rec).trace =
        [.backupImage b, .fsRename o n, .persist] ∧
      (rename_image env rec).ok = true) ∨
    (∃ b ko kn o n, (rename_image env rec).trace =
        [.backupImage b, .docKeyUpdate ko kn, .fsRename o n, .persist] ∧
      (rename_image env rec).ok = true) := by
  unfold rename_image
  cases hcr : can_rename rec.extracted_data with
  | false => simp [hcr]
  | true =>
    rw [if_neg (by simp [hcr])]
    cases hgen : generate_filename rec.extracted_data
        (pathSuffix (pathBase rec.file_info.path)) with
    | none => simp [hgen]
    | some nn =>
      simp only [hgen]
      cases hbk : backup_image env.fs env.timestamp rec.file_info.path
          env.backupOk with
      | none => simp [hbk]
      | some bk =>
        obtain ⟨bp, fs1⟩ := bk
        try simp only [hbk]
        cases hro : relativeTo env.dm.folder rec.file_info.path with
        | none =>
          try simp only [hro]
          refine Or.inr (Or.inl ⟨bp, ?_, ?_⟩) <;> trivial
        | some oldRel =>
          try simp only [hro]
          cases hrn : relativeTo env.dm.folder
              (resolve_filename_conflict env.fs
                (pathParent rec.file_info.path ++ "/" ++ nn)) with
          | none =>
            try simp only [hrn]
            refine Or.inr (Or.inl ⟨bp, ?_, ?_⟩) <;> trivial
          | some newRel =>
            try simp only [hrn]
            cases hws : env.dm.ws with
            | none =>
              try simp only [hws]
              refine Or.inr (Or.inl ⟨bp, ?_, ?_⟩) <;> trivial
            | some w =>
              try simp only [hws]
              cases hlk : w.images.lookup oldRel with
              | some r =>
                try simp only [hlk]
                unfold renameFinish
                cases hct : fs1.contains rec.file_info.path with
                | true =>
                  rw [if_pos (by simp [hct])]
                  refine Or.inr (Or.inr (Or.inr (Or.inr
                    ⟨bp, oldRel, newRel, rec.file_info.path,
                      resolve_filename_conflict env.fs
                        (pathParent rec.file_info.path ++ "/" ++ nn),
                      ?_, ?_⟩))) <;> trivial
                | false =>
                  rw [if_neg (by simp [hct])]
                  refine Or.inr (Or.inr (Or.inl
                    ⟨bp, oldRel, newRel, ?_, ?_⟩)) <;> trivial
              | none =>
                try simp only [hlk]
                unfold renameFinish
                cases hct : fs1.contains rec.file_info.path with
                | true =>
                  rw [if_pos (by simp [hct])]
                  refine Or.inr (Or.inr (Or.inr (Or.inl
                    ⟨bp, rec.file_info.path,
                      resolve_filename_conflict env.fs
                        (pathParent rec.file_info.path ++ "/" ++ nn),
                      ?_, ?_⟩))) <;> trivial
                | false =>
                  rw [if_neg (by simp [hct])]
                  refine Or.inr (Or.inl ⟨bp, ?_, ?_⟩) <;> trivial

def c3rec : ImageRecord :=
  { sampleRecord "a.jpg" with extracted_data :=
      [("Transaction Date (yyyy/mm/dd only)", .str "2024/01/02"),
       ("Store Name", .str "ShopX")] }

def c3env : RenameEnv :=
  { dm := { ws := some { output_format := default_output_format,
                         images := [("a.jpg", c3rec)] }
            folder := some "/f", saves := 0 }
    fs := ["/f/a.jpg"], backupOk := true
    timestamp := "2024-01-02_120000" }

/-- C3 (counterexample): a successful rename whose effect trace is backup,
in-memory document key update, filesystem rename, and only then the
persistence of the document — `_save_workspace()` runs at
data_manager.py line 393, after `old_path.rename(new_path)` at line 387,
so the document update is not persisted to disk before the filesystem
rename is performed. -/
theorem rename_persist_after_fs_rename :
    (rename_image c3env c3rec).ok = true ∧
    (rename_image c3env c3rec).trace =
      [.backupImage "/f/.backupimage/2024-01-02_120000_a.jpg",
       .docKeyUpdate "a.jpg" "2024-01-02_ShopX.jpg",
       .fsRename "/f/a.jpg" "/f/2024-01-02_ShopX.jpg",
       .persist] := by decide

/-- C3 (amended): in every successful rename the in-memory document update
(when the old key is present, removing it and reinserting under the new
key) happens before the filesystem rename, but the document is persisted
to disk only after the filesystem rename, as the last effect of the
call. -/
theorem rename_trace_order (env : RenameEnv) (rec : ImageRecord)
    (h : (rename_image env rec).ok = true) :
    ∃ b o n,
      (rename_image env rec).trace =
        [.backupImage b, .fsRename o n, .persist] ∨
      ∃ ko kn, (rename_image env rec).trace =
        [.backupImage b, .docKeyUpdate ko kn, .fsRename o n, .persist] := by
  rcases rename_trace_cases env rec with
    ⟨_, hok⟩ | ⟨b, _, hok⟩ | ⟨b, ko, kn, _, hok⟩ |
    ⟨b, o, n, ht, _⟩ | ⟨b, ko, kn, o, n, ht, _⟩
  · exact absurd h (by rw [hok]; simp)
  · exact absurd h (by rw [hok]; simp)
  · exact absurd h (by rw [hok]; simp)
  · exact ⟨b, o, n, Or.inl ht⟩
  · exact ⟨b, o, n, Or.inr ⟨ko, kn, ht⟩⟩

/-- C3 (witness): the successful concrete rename instantiates the trace
shape with the document update before the rename and the persist after. -/
theorem rename_trace_order_witness :
    (rename_image c3env c3rec).ok = true ∧
    (∃ b o n,
      (rename_image c3env c3rec).trace =
        [.backupImage b, .fsRename o n, .persist] ∨
      ∃ ko kn, (rename_image c3env c3rec).trace =
        [.backupImage b, .docKeyUpdate ko kn, .fsRename o n, .persist]) :=
  ⟨by decide, rename_trace_order c3env c3rec (by decide)⟩

/-- C6 (confirmed): rename returns false and leaves the DataManager state,
the filesystem and the effect trace untouched when the Transaction Date
or Store Name field is absent or null; it likewise returns false with no
effects at all when the image backup copy cannot be made; and no trace
ever performs a filesystem rename without a backup effect preceding it. -/
theorem rename_refusals (env : RenameEnv) (rec : ImageRecord) :
    ((rec.extracted_data.lookup "Transaction Date (yyyy/mm/dd only)" = none ∨
      rec.extracted_data.lookup "Transaction Date (yyyy/mm/dd only)" =
        some .null ∨
      rec.extracted_data.lookup "Store Name" = none ∨
      rec.extracted_data.lookup "Store Name" = some .null) →
      rename_image env rec =
        { dm := env.dm, fs := env.fs, trace := [], ok := false }) ∧
    (env.backupOk = false →
      rename_image env rec =
        { dm := env.dm, fs := env.fs, trace := [], ok := false }) ∧
    (∀ o n, Effect.fsRename o n ∈ (rename_image env rec).trace →
      ∃ b, (rename_image env rec).trace.head? =
        some (Effect.backupImage b)) := by
  refine ⟨?_, ?_, ?_⟩
  · intro hnull
    have hcr : can_rename rec.extracted_data = false := by
      unfold can_rename rename_required_fields
      rcases hnull with h1 | h1 | h1 | h1 <;>
        simp [List.all, h1, JValue.isNull]
    unfold rename_image
    rw [if_pos (by simp [hcr])]
  · intro hbo
    unfold rename_image
    cases hcr : can_rename rec.extracted_data with
    | false => rw [if_pos (by simp [hcr])]
    | true =>
      rw [if_neg (by simp [hcr])]
      cases hgen : generate_filename rec.extracted_data
          (pathSuffix (pathBase rec.file_info.path)) with
      | none => simp [hgen]
      | some nn =>
        have hbk : backup_image env.fs env.timestamp rec.file_info.path
            env.backupOk = none := by
          unfold backup_image
          rw [hbo]
          rfl
        simp [hgen, hbk]
  · intro o n hmem
    rcases rename_trace_cases env rec with
      ⟨ht, _⟩ | ⟨b, ht, _⟩ | ⟨b, ko, kn, ht, _⟩ |
      ⟨b, o', n', ht, _⟩ | ⟨b, ko, kn, o', n', ht, _⟩ <;> rw [ht] at hmem ⊢
    · exact absurd hmem (by simp)
    · exact absurd hmem (by simp)
    · exact absurd hmem (by simp)
    · exact ⟨b, rfl⟩
    · exact ⟨b, rfl⟩

def c6rec : ImageRecord :=
  { sampleRecord "a.jpg" with extracted_data :=
      [("Transaction Date (yyyy/mm/dd only)", .str "2024/01/02"),
       ("Store Name", .null)] }

def c6env : RenameEnv :=
  { dm := { ws := some { output_format := default_output_format,
                         images := [("a.jpg", c6rec)] }
            folder := some "/f", saves := 0 }
    fs := ["/f/a.jpg"], backupOk := true
    timestamp := "2024-01-02_120000" }

def c6envB : RenameEnv :=
  { dm := c3env.dm, fs := c3env.fs, backupOk := false
    timestamp := c3env.timestamp }

/-- C6 (witness): a record with a null Store Name is refused without any
effect; a failing backup aborts a rename that would otherwise proceed;
and the successful concrete rename's trace has its backup first. -/
theorem rename_refusals_witness :
    c6rec.extracted_data.lookup "Store Name" = some .null ∧
    rename_image c6env c6rec =
      { dm := c6env.dm, fs := c6env.fs, trace := [], ok := false } ∧
    c6envB.backupOk = false ∧
    rename_image c6envB c3rec =
      { dm := c6envB.dm, fs := c6envB.fs, trace := [], ok := false } ∧
    (Effect.fsRename "/f/a.jpg" "/f/2024-01-02_ShopX.jpg" ∈
      (rename_image c3env c3rec).trace → ∃ b,
      (rename_image c3env c3rec).trace.head? =
        some (Effect.backupImage b)) :=
  ⟨by decide,
    (rename_refusals c6env c6rec).1 (Or.inr (Or.inr (Or.inr (by decide)))),
    by decide,
    (rename_refusals c6envB c3rec).2.1 (by decide),
    (rename_refusals c3env c3rec).2.2 "/f/a.jpg"
      "/f/2024-01-02_ShopX.jpg"⟩

end Receipt
